import Mathlib

/-!
Formal model of the Handit.ai VS Code extension (login panel, trace/fix
control panel and workspace text-edit utilities), shallowly embedded from
the TypeScript sources, together with theorems about its behavior.

Strings are modelled as `List Char`; JavaScript string primitives
(`includes`, `replace`, `split`/`join`) are embedded as executable
functions below.
-/

namespace Handit

/-- JS `needle` matches at the start of `hay` (prefix test used by the
embeddings of `String.prototype.includes` and `String.prototype.replace`). -/
def beginsWith : List Char → List Char → Bool
  | [], _ => true
  | _ :: _, [] => false
  | a :: as, b :: bs => a == b && beginsWith as bs

/-- JS `hay.includes(needle)`: exact-substring containment. -/
def containsStr (needle : List Char) : List Char → Bool
  | [] => beginsWith needle []
  | c :: rest => beginsWith needle (c :: rest) || containsStr needle rest

/-- JS `hay.replace(search, repl)` with a string pattern: replaces the first
occurrence only. -/
def replaceFirst (search repl : List Char) : List Char → List Char
  | [] => if beginsWith search [] then repl else []
  | c :: rest =>
    if beginsWith search (c :: rest) then repl ++ (c :: rest).drop search.length
    else c :: replaceFirst search repl rest

/-- Fueled worker for global replacement (`split(search).join(repl)` with a
non-empty search string); fuel `hay.length` is always sufficient because each
step consumes at least one character of `hay`. -/
def replaceAllFuel (search repl : List Char) : Nat → List Char → List Char
  | _, [] => []
  | 0, hay => hay
  | fuel + 1, c :: rest =>
    if beginsWith search (c :: rest) then
      repl ++ replaceAllFuel search repl fuel ((c :: rest).drop search.length)
    else c :: replaceAllFuel search repl fuel rest

/-- Expand every character of a list through `f` (helper used to state what
global single-character replacement does). -/
def charExpand (f : Char → List Char) : List Char → List Char
  | [] => []
  | c :: rest => f c ++ charExpand f rest

/-- JS `parts.join(sep)`. -/
def joinSep (sep : List Char) : List (List Char) → List Char
  | [] => []
  | [p] => p
  | p :: q :: ps => p ++ sep ++ joinSep sep (q :: ps)

/-- JS `hay.split(search).join(repl)`: replaces every (non-overlapping,
left-to-right) occurrence; an empty search splits into single characters. -/
def replaceAllJS (search repl hay : List Char) : List Char :=
  if search = [] then joinSep repl (hay.map fun c => [c])
  else replaceAllFuel search repl hay.length hay

/-- Decimal digits of a natural number (JS template interpolation of a
non-negative integer), via a fueled worker. -/
def natDecimalAux : Nat → Nat → List Char
  | 0, _ => []
  | fuel + 1, n =>
    if n < 10 then [Char.ofNat (48 + n)]
    else natDecimalAux fuel (n / 10) ++ [Char.ofNat (48 + n % 10)]

/-- Decimal representation of `n` (as interpolated by a JS template). -/
def natDecimal (n : Nat) : List Char := natDecimalAux (n + 1) n

/-! ## Client-side form validation (webview/src/components/LoginForm.tsx) -/

/-- JS whitespace characters matched by the regex class used in
`validateForm` (the inputs of interest contain none of the exotic ones). -/
def jsWhitespace (c : Char) : Bool :=
  c == ' ' || c == '\t' || c == '\n' || c == '\r' || c == '\x0b' || c == '\x0c'

def nonSpace (c : Char) : Bool := !(jsWhitespace c)

/-- The unanchored regex test of LoginForm.tsx line 29 on the email string:
true iff some substring matches nonspace-run, at-sign, nonspace-run, dot,
nonspace-run.  `p` is the position of the at-sign and `q` of the dot. -/
def emailPatternTest (cs : List Char) : Bool :=
  (List.range cs.length).any fun p =>
    (List.range cs.length).any fun q =>
      decide (1 ≤ p) && decide (p + 2 ≤ q) && decide (q + 2 ≤ cs.length) &&
      (cs.getD p ' ' == '@') && (cs.getD q ' ' == '.') &&
      nonSpace (cs.getD (p - 1) ' ') && nonSpace (cs.getD (q + 1) ' ') &&
      ((List.range cs.length).all fun i =>
        !(decide (p < i) && decide (i < q)) || nonSpace (cs.getD i ' '))

/-- Email field of `validateForm` (LoginForm.tsx lines 27-31). -/
def emailError (email : String) : Option String :=
  if email = "" then some "Email is required"
  else if !(emailPatternTest email.data) then some "Please enter a valid email address"
  else none

/-- Password field of `validateForm` (LoginForm.tsx lines 33-37). -/
def passwordError (password : String) : Option String :=
  if password = "" then some "Password is required"
  else if password.length < 6 then some "Password must be at least 6 characters"
  else none

/-- `validateForm` returns true iff no field produced an error
(LoginForm.tsx lines 39-40). -/
def validateForm (email password : String) : Bool :=
  (emailError email).isNone && (passwordError password).isNone

/-- C5: client-side validation accepts `user@example.com` and rejects
`user@`, `userexample.com` and the empty email; it rejects every password
shorter than 6 characters and accepts every password of exactly 6. -/
theorem validateForm_email_password_rules :
    emailError "user@example.com" = none ∧
    (emailError "user@").isSome = true ∧
    (emailError "userexample.com").isSome = true ∧
    (emailError "").isSome = true ∧
    (∀ p : String, p.length < 6 → (passwordError p).isSome = true) ∧
    (∀ p : String, p.length = 6 → passwordError p = none) := by
  refine ⟨by decide, by decide, by decide, by decide, ?_, ?_⟩
  · intro p hp
    unfold passwordError
    by_cases h0 : p = ""
    · simp [h0]
    · simp [h0, hp]
  · intro p hp
    unfold passwordError
    have h0 : p ≠ "" := by
      intro h
      rw [h] at hp
      simp at hp
    simp [h0, hp]

/-- Closed instance of the password rules of `validateForm_email_password_rules`. -/
theorem validateForm_email_password_rules_witness :
    (passwordError "abc").isSome = true ∧ passwordError "abcdef" = none :=
  ⟨validateForm_email_password_rules.2.2.2.2.1 "abc" (by decide),
   validateForm_email_password_rules.2.2.2.2.2 "abcdef" (by decide)⟩

/-! ## Streaming text reveal (ControlPanel.tsx, startStreamingInsights lines
344-358 and startStreamingOptimizedPrompts lines 436-453; same loop in the
historical revision).  Both loops keep `currentIndex`, and on each interval
tick set the visible text to `fullText.substring(0, currentIndex + 1)` while
`currentIndex < fullText.length`, else clear the interval and set the
complete flag.  (In the fixes step the canonical revision additionally runs
the revealed substring through a markdown renderer before display.) -/

structure StreamState where
  currentIndex : Nat
  visible : List Char
  complete : Bool
deriving DecidableEq

def streamInit : StreamState := { currentIndex := 0, visible := [], complete := false }

/-- One interval tick of the streaming loop. -/
def streamTick (fullText : List Char) (s : StreamState) : StreamState :=
  if s.currentIndex < fullText.length then
    { currentIndex := s.currentIndex + 1
      visible := fullText.take (s.currentIndex + 1)
      complete := s.complete }
  else
    { s with complete := true }

/-- State of the streaming reveal after `k` interval ticks. -/
def streamRun (fullText : List Char) : Nat → StreamState
  | 0 => streamInit
  | k + 1 => streamTick fullText (streamRun fullText k)

theorem streamRun_index_visible (fullText : List Char) :
    ∀ k, k ≤ fullText.length →
      (streamRun fullText k).currentIndex = k ∧
      (streamRun fullText k).visible = fullText.take k := by
  intro k
  induction k with
  | zero => intro _; exact ⟨rfl, rfl⟩
  | succ k ih =>
    intro hk
    have hk' : k ≤ fullText.length := Nat.le_of_succ_le hk
    have hlt : k < fullText.length := Nat.lt_of_succ_le hk
    obtain ⟨hidx, hvis⟩ := ih hk'
    constructor
    · simp [streamRun, streamTick, hidx, hlt]
    · simp [streamRun, streamTick, hidx, hlt]

/-- C3: for every final string fed to the streaming reveal, the visible text
after `k` interval ticks (`0 ≤ k ≤ N`) is exactly the first `k` characters of
the final string, and the visible text equals the full string exactly when
`k = N`: the reveal completes after exactly `N` discrete timer steps. -/
theorem streamRun_reveals_initial_segment (fullText : List Char) (k : Nat)
    (hk : k ≤ fullText.length) :
    (streamRun fullText k).visible = fullText.take k ∧
    ((streamRun fullText k).visible = fullText ↔ k = fullText.length) := by
  obtain ⟨_, hvis⟩ := streamRun_index_visible fullText k hk
  refine ⟨hvis, ?_, ?_⟩
  · intro hfull
    rw [hvis] at hfull
    have := congrArg List.length hfull
    simpa [Nat.min_eq_left hk] using this
  · intro hEq
    rw [hvis, hEq, List.take_length]

/-- Closed instance of `streamRun_reveals_initial_segment`. -/
theorem streamRun_reveals_initial_segment_witness :
    (streamRun "ab".data 1).visible = "ab".data.take 1 ∧
    ((streamRun "ab".data 1).visible = "ab".data ↔ 1 = "ab".data.length) :=
  streamRun_reveals_initial_segment "ab".data 1 (by decide)

/-! ## Insights data (ControlPanel.tsx / useChat.ts) -/

structure Insight where
  problem : List Char
  solution : List Char
deriving DecidableEq

/-- Shape of the insights API response used by the counter effect
(ControlPanel.tsx lines 503-533): `total_insights` and `insights` may each
be absent. -/
structure InsightsResponse where
  total_insights : Option Nat
  insights : Option (List Insight)
deriving DecidableEq

/-- ControlPanel.tsx line 509: `response.data?.total_insights ??
(Array.isArray(response.data?.insights) ? response.data.insights.length : 0)`. -/
def parseTotalInsights (r : InsightsResponse) : Nat :=
  match r.total_insights with
  | some t => t
  | none =>
    match r.insights with
    | some l => l.length
    | none => 0

/-! ## Found-issues counter (ControlPanel.tsx lines 513-533).  Starting from
`setFoundCount(0)`, each interval tick increments `current` and publishes it;
once `current >= totalInsights` the interval is cleared, evaluation is marked
complete and the streaming reveal is scheduled (a timeout that fires strictly
after the counter displayed the total). -/

structure InsightsCounter where
  foundCount : Nat
  stopped : Bool
  evaluationComplete : Bool
  streamingStarted : Bool
deriving DecidableEq

def counterInit : InsightsCounter :=
  { foundCount := 0, stopped := false, evaluationComplete := false, streamingStarted := false }

/-- One tick of the counter interval. -/
def counterTick (totalInsights : Nat) (s : InsightsCounter) : InsightsCounter :=
  if s.stopped then s
  else
    let current := s.foundCount + 1
    if totalInsights ≤ current then
      { foundCount := current, stopped := true, evaluationComplete := true,
        streamingStarted := true }
    else
      { foundCount := current, stopped := false,
        evaluationComplete := s.evaluationComplete,
        streamingStarted := s.streamingStarted }

def counterRun (totalInsights : Nat) : Nat → InsightsCounter
  | 0 => counterInit
  | k + 1 => counterTick totalInsights (counterRun totalInsights k)

theorem counterRun_five (k : Nat) :
    (counterRun 5 k).foundCount = min k 5 ∧
    ((counterRun 5 k).stopped ↔ 5 ≤ k) ∧
    ((counterRun 5 k).evaluationComplete ↔ 5 ≤ k) ∧
    ((counterRun 5 k).streamingStarted ↔ 5 ≤ k) := by
  induction k with
  | zero => refine ⟨rfl, ?_, ?_, ?_⟩ <;> simp [counterRun, counterInit]
  | succ k ih =>
    obtain ⟨hc, hs, he, hst⟩ := ih
    by_cases h5 : 5 ≤ k
    · have hstop : (counterRun 5 k).stopped = true := by rw [hs]; exact h5
      have hfix : counterRun 5 (k + 1) = counterRun 5 k := by
        simp [counterRun, counterTick, hstop]
      rw [hfix]
      refine ⟨?_, ?_, ?_, ?_⟩
      · rw [hc]; omega
      · rw [hs]; constructor <;> intro <;> omega
      · rw [he]; constructor <;> intro <;> omega
      · rw [hst]; constructor <;> intro <;> omega
    · have hstop : (counterRun 5 k).stopped = false := by
        rw [Bool.eq_false_iff]
        intro hb
        exact h5 (hs.mp hb)
      have hck : (counterRun 5 k).foundCount = k := by rw [hc]; omega
      by_cases hk4 : 5 ≤ k + 1
      · have hkeq : k = 4 := by omega
        subst hkeq
        exact ⟨by decide, by decide, by decide, by decide⟩
      · refine ⟨?_, ?_, ?_, ?_⟩ <;>
          simp [counterRun, counterTick, hstop, hck, hk4, he, hst] <;>
          omega


/-- C9: for an insights response with `total_insights = 5` and an insights
array of length 5, the animated found-issues counter increments step by step
(value `min k 5` after `k` ticks), reaches exactly 5 and never exceeds it,
and the textual streaming reveal is started exactly from the tick at which
the counter has reached the total, never before. -/
theorem insights_counter_reaches_total_then_streams (r : InsightsResponse)
    (htotal : r.total_insights = some 5)
    (hlen : ∃ l, r.insights = some l ∧ l.length = 5) :
    ∀ k, (counterRun (parseTotalInsights r) k).foundCount = min k 5 ∧
      ((counterRun (parseTotalInsights r) k).streamingStarted ↔ 5 ≤ k) := by
  obtain ⟨l, _, _⟩ := hlen
  have hparse : parseTotalInsights r = 5 := by
    unfold parseTotalInsights
    rw [htotal]
  intro k
  rw [hparse]
  exact ⟨(counterRun_five k).1, (counterRun_five k).2.2.2⟩

/-- Closed instance of `insights_counter_reaches_total_then_streams` at a
concrete five-insight response and seven ticks. -/
theorem insights_counter_reaches_total_then_streams_witness :
    (counterRun
        (parseTotalInsights
          { total_insights := some 5
            insights := some [⟨[], []⟩, ⟨[], []⟩, ⟨[], []⟩, ⟨[], []⟩, ⟨[], []⟩] }) 7).foundCount
        = min 7 5 ∧
    ((counterRun
        (parseTotalInsights
          { total_insights := some 5
            insights := some [⟨[], []⟩, ⟨[], []⟩, ⟨[], []⟩, ⟨[], []⟩, ⟨[], []⟩] }) 7).streamingStarted
        ↔ 5 ≤ 7) :=
  insights_counter_reaches_total_then_streams
    { total_insights := some 5
      insights := some [⟨[], []⟩, ⟨[], []⟩, ⟨[], []⟩, ⟨[], []⟩, ⟨[], []⟩] }
    rfl ⟨[⟨[], []⟩, ⟨[], []⟩, ⟨[], []⟩, ⟨[], []⟩, ⟨[], []⟩], rfl, rfl⟩ 7

/-! ## Run-completed notification pipeline.

`ApiService.establishSocketConnection` (src/src/services/ApiService.ts)
registers listeners on the freshly created socket.  The registrations, in
source order, are: `connect`, `disconnect`, `connect_error`, `subscribed`,
`unsubscribed`, `run-completed`, `session-updated`, `error` (lines 294-397),
a catch-all logging-only listener (line 400, omitted here because it invokes
no callback), and then a second, duplicated block registering `subscribed`,
`unsubscribed`, `run-completed` and `session-updated` again (lines 407-452).
Every `run-completed` listener forwards the event data unconditionally to
`callbacks.onRunCompleted` (lines 374-376 and 438-440).

The extension host supplies an `onRunCompleted` callback
(src/src/loginPanelProvider.ts lines 393-410) that posts a `traceReceived`
message to the webview exactly when `data.run` is present with
`run.action === 'track'` (it also shows an informational toast, which touches
no trace state).  The webview reduces each posted message through
`useChat.handleMessage` (webview/src/hooks/useChat.ts lines 51-95). -/

structure RunPayload where
  action : Option String
deriving DecidableEq

structure RunCompletedData where
  run : Option RunPayload
deriving DecidableEq

inductive WebviewMsg where
  | traceReceived (traceData : RunPayload)
  | socketConnected (sessionId : String)
  | socketClosed
deriving DecidableEq

/-- Messages posted to the webview by one invocation of the host-side
`onRunCompleted` callback (loginPanelProvider.ts lines 393-410). -/
def onRunCompleted (data : RunCompletedData) : List WebviewMsg :=
  match data.run with
  | some run => if run.action = some "track" then [.traceReceived run] else []
  | none => []

structure FixSessionState where
  active : Bool
  sessionId : Option String
  traceCount : Nat
  runs : List RunPayload
deriving DecidableEq

structure ChatState where
  fixSession : FixSessionState
  /-- The appended trace-event chat messages, identified by the trace count
  they announce (`Trace n received!`). -/
  messages : List Nat
deriving DecidableEq

/-- `useChat.handleMessage` (useChat.ts lines 51-95): `traceReceived`
increments the trace count, appends the run to `runs` and appends one chat
message announcing the new count; `socketConnected` / `socketClosed` only
touch the connection fields. -/
def handleMessage (s : ChatState) (m : WebviewMsg) : ChatState :=
  match m with
  | .traceReceived run =>
    let newTraceCount := s.fixSession.traceCount + 1
    { fixSession :=
        { s.fixSession with
          traceCount := newTraceCount
          runs := s.fixSession.runs ++ [run] }
      messages := s.messages ++ [newTraceCount] }
  | .socketConnected sid =>
    { s with fixSession := { s.fixSession with active := true, sessionId := some sid } }
  | .socketClosed =>
    { s with fixSession := { s.fixSession with active := false } }

inductive SocketEventName where
  | connectEvt | disconnectEvt | connectErrorEvt | subscribedEvt
  | unsubscribedEvt | runCompletedEvt | sessionUpdatedEvt | errorEvt
deriving DecidableEq

/-- The listener registrations performed by one call of
`ApiService.establishSocketConnection`, in source order (ApiService.ts lines
294-452); `subscribed`, `unsubscribed`, `run-completed` and `session-updated`
are each registered twice. -/
def establishSocketConnectionRegistrations : List SocketEventName :=
  [ .connectEvt, .disconnectEvt, .connectErrorEvt, .subscribedEvt,
    .unsubscribedEvt, .runCompletedEvt, .sessionUpdatedEvt, .errorEvt,
    .subscribedEvt, .unsubscribedEvt, .runCompletedEvt, .sessionUpdatedEvt ]

/-- Delivery of one incoming `run-completed` socket event: socket.io invokes
every registered `run-completed` listener once per registration, each of
which forwards the data to `callbacks.onRunCompleted`; the resulting webview
messages are reduced by `handleMessage`. -/
def dispatchRunCompleted (data : RunCompletedData) (s : ChatState) : ChatState :=
  (establishSocketConnectionRegistrations.filter
      (fun e => e == SocketEventName.runCompletedEvt)).foldl
    (fun st _ => (onRunCompleted data).foldl handleMessage st) s

/-- C1: delivering a single `run-completed` event with `run.action = 'track'`
through the listeners registered by one `establishSocketConnection` call
increments the trace count by TWO, not by one: the duplicated listener
registration makes each logical event fire the callback twice. -/
theorem dispatchRunCompleted_track_double_increment (s : ChatState) :
    (dispatchRunCompleted { run := some { action := some "track" } } s).fixSession.traceCount
      = s.fixSession.traceCount + 2 := by
  rfl

/-- Closed instance of `dispatchRunCompleted_track_double_increment` at the
initial chat state. -/
theorem dispatchRunCompleted_track_double_increment_witness :
    (dispatchRunCompleted { run := some { action := some "track" } }
        { fixSession := { active := true, sessionId := some "s1", traceCount := 0, runs := [] }
          messages := [] }).fixSession.traceCount = 0 + 2 :=
  dispatchRunCompleted_track_double_increment
    { fixSession := { active := true, sessionId := some "s1", traceCount := 0, runs := [] }
      messages := [] }

/-- C4: full effect of delivering one `run-completed` notification through
the registered listeners.  A `track` notification yields TWO trace-count
increments, two appended chat messages and two appended runs (one per
duplicated listener registration), not exactly one; a notification whose run
has a different action, or no run at all, leaves the chat state unchanged. -/
theorem dispatchRunCompleted_effects (s : ChatState) (run : RunPayload) :
    (run.action = some "track" →
      (dispatchRunCompleted { run := some run } s).fixSession.traceCount
          = s.fixSession.traceCount + 2 ∧
      (dispatchRunCompleted { run := some run } s).messages
          = s.messages ++ [s.fixSession.traceCount + 1, s.fixSession.traceCount + 2] ∧
      (dispatchRunCompleted { run := some run } s).fixSession.runs
          = s.fixSession.runs ++ [run, run]) ∧
    (run.action ≠ some "track" → dispatchRunCompleted { run := some run } s = s) ∧
    dispatchRunCompleted { run := none } s = s := by
  refine ⟨?_, ?_, ?_⟩
  · intro htrack
    refine ⟨?_, ?_, ?_⟩ <;>
      simp [dispatchRunCompleted, establishSocketConnectionRegistrations,
        onRunCompleted, handleMessage, htrack]
  · intro hnot
    simp [dispatchRunCompleted, establishSocketConnectionRegistrations,
      onRunCompleted, hnot]
  · rfl

/-- Closed instance of `dispatchRunCompleted_effects`, at a track run and a
non-track run. -/
theorem dispatchRunCompleted_effects_witness :
    ((dispatchRunCompleted { run := some { action := some "track" } }
        { fixSession := { active := true, sessionId := none, traceCount := 3, runs := [] }
          messages := [] }).messages = [] ++ [3 + 1, 3 + 2]) ∧
    dispatchRunCompleted { run := some { action := some "evaluate" } }
        { fixSession := { active := true, sessionId := none, traceCount := 3, runs := [] }
          messages := [] }
      = { fixSession := { active := true, sessionId := none, traceCount := 3, runs := [] }
          messages := [] } :=
  ⟨((dispatchRunCompleted_effects
      { fixSession := { active := true, sessionId := none, traceCount := 3, runs := [] }
        messages := [] }
      { action := some "track" }).1 rfl).2.1,
   (dispatchRunCompleted_effects
      { fixSession := { active := true, sessionId := none, traceCount := 3, runs := [] }
        messages := [] }
      { action := some "evaluate" }).2.1 (by decide)⟩

/-! ## Auth view submission (webview/src/components/LoginForm.tsx lines 46-70
with the App.tsx wiring `onSuccess={() => setView('ai-models')}`, line 73).

`handleSubmit` validates the form; when validation passes it posts the
`login` command to the host and then immediately invokes `onSuccess`
(advancing the view to the provider-connect view).  It consumes no host
response: the canonical revision registers no listener for `loginResponse`. -/

inductive UiToHost where
  | login (email password : String)
deriving DecidableEq

inductive WebviewView where
  | auth | aiModels | controlPanel
deriving DecidableEq

/-- `LoginForm.handleSubmit` composed with the App view update: returns the
UI-to-host messages posted and the view after the submission returns.  The
function has no host-response input at all. -/
def handleSubmit (email password : String) (view : WebviewView) :
    List UiToHost × WebviewView :=
  if validateForm email password then
    ([UiToHost.login email password], WebviewView.aiModels)
  else
    ([], view)

/-- C2 (code behavior at the failing input): whenever client-side validation
passes, `handleSubmit` advances the view to the provider-connect view
immediately after posting the `login` command — before any host response
exists, contradicting the claim that the view advances only upon a host
success response. -/
theorem handleSubmit_advances_without_response (email password : String)
    (view : WebviewView) (hv : validateForm email password = true) :
    handleSubmit email password view
      = ([UiToHost.login email password], WebviewView.aiModels) := by
  simp [handleSubmit, hv]

/-- Closed instance of `handleSubmit_advances_without_response`. -/
theorem handleSubmit_advances_without_response_witness :
    handleSubmit "user@example.com" "secret1" WebviewView.auth
      = ([UiToHost.login "user@example.com" "secret1"], WebviewView.aiModels) :=
  handleSubmit_advances_without_response "user@example.com" "secret1"
    WebviewView.auth (by decide)

/-! ## Post-authentication session and notification-channel setup
(src/src/loginPanelProvider.ts).

After a successful login (`_handleLogin`, lines 77-118) the host shows an
informational toast and posts `loginResponse { success: true }`, then awaits
`_createCodeGPTSession` (lines 307-358).  That method catches every failure
internally and surfaces it as `showWarningMessage` only, never rethrowing;
on success it proceeds to `_establishSocketConnection` (lines 365-435),
which likewise catches every failure internally and shows a warning.  The
signup path (`_handleSignup`, lines 162-201) posts
`signupResponse { success: true }`, shows the toast and calls the same
helper.  Consequently the enclosing catch blocks that would post a failure
response are unreachable once the success response has been posted. -/

inductive SessionResult where
  | ok (sessionId : String)
  | err (errorMessage : String)
deriving DecidableEq

inductive SocketResult where
  | ok
  | err (message : String)
deriving DecidableEq

inductive HostEvent where
  | postLoginResponse (success : Bool)
  | postSignupResponse (success : Bool)
  | toastInfo (text : String)
  | toastWarning (text : String)
  | toastError (text : String)
deriving DecidableEq

/-- Events of `_establishSocketConnection` (loginPanelProvider.ts lines
365-435): a failure is caught and shown as a warning; on success the
synchronous part emits nothing (socket events arrive asynchronously later). -/
def establishSocketConnectionEvents : SocketResult → List HostEvent
  | .ok => []
  | .err m => [.toastWarning ("Socket connection warning: " ++ m)]

/-- Events of `_createCodeGPTSession` (loginPanelProvider.ts lines 307-358):
session-creation failure is caught and shown as a warning (the login/signup
success already posted is not undone); success shows an info toast and runs
the socket setup. -/
def createCodeGPTSessionEvents (sres : SessionResult) (kres : SocketResult) :
    List HostEvent :=
  match sres with
  | .ok sid =>
    [.toastInfo ("CodeGPT session created! Session ID: " ++ sid)]
      ++ establishSocketConnectionEvents kres
  | .err m => [.toastWarning ("CodeGPT session warning: " ++ m)]

/-- Events of the success branch of `_handleLogin` (lines 83-118): toast,
success response, then the downstream session/socket steps. -/
def handleLoginSuccessEvents (email : String) (sres : SessionResult)
    (kres : SocketResult) : List HostEvent :=
  [.toastInfo ("Login successful for " ++ email ++ "!"), .postLoginResponse true]
    ++ createCodeGPTSessionEvents sres kres

/-- Events of the success branch of `_handleSignup` (lines 176-201):
success response, toast, then the downstream session/socket steps. -/
def handleSignupSuccessEvents (email : String) (sres : SessionResult)
    (kres : SocketResult) : List HostEvent :=
  [.postSignupResponse true, .toastInfo ("Signup successful for " ++ email ++ "!")]
    ++ createCodeGPTSessionEvents sres kres

/-- C6: whatever the outcomes of session creation and notification-channel
opening after a successful login or signup, exactly one success response is
posted, no failure response for the authentication step is ever produced, no
error toast is shown, and a session-creation or channel failure surfaces as
a warning toast. -/
theorem auth_downstream_failures_warn_only (email : String)
    (sres : SessionResult) (kres : SocketResult) :
    ((handleLoginSuccessEvents email sres kres).count (HostEvent.postLoginResponse true) = 1 ∧
      HostEvent.postLoginResponse false ∉ handleLoginSuccessEvents email sres kres ∧
      (∀ t, HostEvent.toastError t ∉ handleLoginSuccessEvents email sres kres) ∧
      (∀ m, sres = SessionResult.err m →
        HostEvent.toastWarning ("CodeGPT session warning: " ++ m)
          ∈ handleLoginSuccessEvents email sres kres) ∧
      (∀ sid m, sres = SessionResult.ok sid → kres = SocketResult.err m →
        HostEvent.toastWarning ("Socket connection warning: " ++ m)
          ∈ handleLoginSuccessEvents email sres kres)) ∧
    ((handleSignupSuccessEvents email sres kres).count (HostEvent.postSignupResponse true) = 1 ∧
      HostEvent.postSignupResponse false ∉ handleSignupSuccessEvents email sres kres ∧
      (∀ t, HostEvent.toastError t ∉ handleSignupSuccessEvents email sres kres) ∧
      (∀ m, sres = SessionResult.err m →
        HostEvent.toastWarning ("CodeGPT session warning: " ++ m)
          ∈ handleSignupSuccessEvents email sres kres) ∧
      (∀ sid m, sres = SessionResult.ok sid → kres = SocketResult.err m →
        HostEvent.toastWarning ("Socket connection warning: " ++ m)
          ∈ handleSignupSuccessEvents email sres kres)) := by
  cases sres with
  | ok sid =>
    cases kres with
    | ok =>
      refine ⟨⟨?_, ?_, ?_, ?_, ?_⟩, ⟨?_, ?_, ?_, ?_, ?_⟩⟩ <;>
        simp [handleLoginSuccessEvents, handleSignupSuccessEvents,
          createCodeGPTSessionEvents, establishSocketConnectionEvents,
          List.count_cons, List.count_nil]
    | err m =>
      refine ⟨⟨?_, ?_, ?_, ?_, ?_⟩, ⟨?_, ?_, ?_, ?_, ?_⟩⟩ <;>
        simp [handleLoginSuccessEvents, handleSignupSuccessEvents,
          createCodeGPTSessionEvents, establishSocketConnectionEvents,
          List.count_cons, List.count_nil]
  | err m =>
    cases kres with
    | ok =>
      refine ⟨⟨?_, ?_, ?_, ?_, ?_⟩, ⟨?_, ?_, ?_, ?_, ?_⟩⟩ <;>
        simp [handleLoginSuccessEvents, handleSignupSuccessEvents,
          createCodeGPTSessionEvents, establishSocketConnectionEvents,
          List.count_cons, List.count_nil]
    | err m2 =>
      refine ⟨⟨?_, ?_, ?_, ?_, ?_⟩, ⟨?_, ?_, ?_, ?_, ?_⟩⟩ <;>
        simp [handleLoginSuccessEvents, handleSignupSuccessEvents,
          createCodeGPTSessionEvents, establishSocketConnectionEvents,
          List.count_cons, List.count_nil]

/-- Closed instance of `auth_downstream_failures_warn_only` with a failing
session creation. -/
theorem auth_downstream_failures_warn_only_witness :
    HostEvent.toastWarning ("CodeGPT session warning: " ++ "boom")
      ∈ handleLoginSuccessEvents "u@e.co" (SessionResult.err "boom") SocketResult.ok ∧
    (handleLoginSuccessEvents "u@e.co" (SessionResult.err "boom") SocketResult.ok).count
      (HostEvent.postLoginResponse true) = 1 :=
  ⟨(auth_downstream_failures_warn_only "u@e.co" (SessionResult.err "boom")
      SocketResult.ok).1.2.2.2.1 "boom" rfl,
   (auth_downstream_failures_warn_only "u@e.co" (SessionResult.err "boom")
      SocketResult.ok).1.1⟩

/-! ## Workspace files and the Accept action (src/unnamed/part_000,
`_acceptPromptChanges` lines 64-109).

The provider stores `currentOriginalPrompt`, `currentOptimizedPrompt` and
`currentDiffUri` while a diff is open and nulls them when it closes.  Accept
first checks the JS-falsy guard on the three fields (null or empty string);
if it fails, it reports `No prompt changes to accept` and returns without
touching any file.  Otherwise it scans the candidate workspace files in
order for the first one whose text contains the original prompt; if none
does, it reports `Could not find the file containing the original prompt`
and returns without touching any file; otherwise it rewrites that file with
`content.replace(original, optimized)` (first occurrence). -/

structure WorkspaceFile where
  name : String
  content : List Char
deriving DecidableEq

structure DiffPromptState where
  currentOriginalPrompt : Option String
  currentOptimizedPrompt : Option String
  currentDiffUri : Option String
deriving DecidableEq

inductive AcceptOutcome where
  | errorNoChanges
  | errorFileNotFound
  | applied (name : String)
deriving DecidableEq

/-- Rewrite the first file containing `orig`, leaving the rest untouched
(the edit applied by the Accept branch that found a target file). -/
def applyToFirstContaining (orig opt : List Char) : List WorkspaceFile → List WorkspaceFile
  | [] => []
  | f :: rest =>
    if containsStr orig f.content then
      { f with content := replaceFirst orig opt f.content } :: rest
    else f :: applyToFirstContaining orig opt rest

/-- `_acceptPromptChanges`: returns the workspace after the action together
with the reported outcome. -/
def acceptPromptChanges (st : DiffPromptState) (ws : List WorkspaceFile) :
    List WorkspaceFile × AcceptOutcome :=
  match st.currentOriginalPrompt, st.currentOptimizedPrompt, st.currentDiffUri with
  | some orig, some opt, some uri =>
    if orig = "" ∨ opt = "" ∨ uri = "" then (ws, .errorNoChanges)
    else if ws.any (fun f => containsStr orig.data f.content) then
      (applyToFirstContaining orig.data opt.data ws, .applied "")
    else (ws, .errorFileNotFound)
  | _, _, _ => (ws, .errorNoChanges)

/-- C7: Accept invoked with no stored diff (any of the three stored fields
absent) reports an error and performs no file write; Accept invoked with a
diff open while no workspace file contains the original text reports the
file-not-found error and performs no file write. -/
theorem acceptPromptChanges_error_paths (st : DiffPromptState)
    (ws : List WorkspaceFile) :
    ((st.currentOriginalPrompt = none ∨ st.currentOptimizedPrompt = none ∨
        st.currentDiffUri = none) →
      acceptPromptChanges st ws = (ws, AcceptOutcome.errorNoChanges)) ∧
    (∀ orig opt uri,
      st = { currentOriginalPrompt := some orig, currentOptimizedPrompt := some opt,
             currentDiffUri := some uri } →
      orig ≠ "" → opt ≠ "" → uri ≠ "" →
      (∀ f ∈ ws, containsStr orig.data f.content = false) →
      acceptPromptChanges st ws = (ws, AcceptOutcome.errorFileNotFound)) := by
  constructor
  · intro h
    obtain ⟨o, p, u⟩ := st
    rcases h with h | h | h <;> simp_all [acceptPromptChanges]
  · intro orig opt uri hst ho hp hu hnone
    subst hst
    have hany : ws.any (fun f => containsStr orig.data f.content) = false := by
      rw [List.any_eq_false]
      intro f hf
      simp [hnone f hf]
    simp [acceptPromptChanges, ho, hp, hu, hany]

/-- Closed instance of `acceptPromptChanges_error_paths`: no stored diff, and
a stored diff whose original text occurs in no workspace file. -/
theorem acceptPromptChanges_error_paths_witness :
    acceptPromptChanges
        { currentOriginalPrompt := none, currentOptimizedPrompt := some "b",
          currentDiffUri := some "u" }
        [{ name := "a.txt", content := "hello".data }]
      = ([{ name := "a.txt", content := "hello".data }], AcceptOutcome.errorNoChanges) ∧
    acceptPromptChanges
        { currentOriginalPrompt := some "zzz", currentOptimizedPrompt := some "b",
          currentDiffUri := some "u" }
        [{ name := "a.txt", content := "hello".data }]
      = ([{ name := "a.txt", content := "hello".data }], AcceptOutcome.errorFileNotFound) :=
  ⟨(acceptPromptChanges_error_paths
      { currentOriginalPrompt := none, currentOptimizedPrompt := some "b",
        currentDiffUri := some "u" }
      [{ name := "a.txt", content := "hello".data }]).1 (Or.inl rfl),
   (acceptPromptChanges_error_paths
      { currentOriginalPrompt := some "zzz", currentOptimizedPrompt := some "b",
        currentDiffUri := some "u" }
      [{ name := "a.txt", content := "hello".data }]).2 "zzz" "b" "u" rfl
      (by decide) (by decide) (by decide) (by decide)⟩

/-! ## Bulk text replacement (src/unnamed/part_000,
`_handleBulkApplyTextReplace` lines 927-957).

The handler iterates the candidate files in order; files whose text does not
contain `searchText` are skipped; for each containing file it computes
`original.split(searchText).join(replacementText)` (every occurrence
replaced), applies the full-document edit, saves the file and increments the
counter; finally it reports `Bulk replace applied in {updated} file(s)`.
The host edit-apply is modelled as succeeding. -/

structure BulkResult where
  files : List WorkspaceFile
  savedNames : List String
  updatedCount : Nat
deriving DecidableEq

/-- One iteration of the bulk-replace loop body. -/
def bulkStep (search repl : List Char) (acc : BulkResult) (f : WorkspaceFile) :
    BulkResult :=
  if containsStr search f.content then
    { files := acc.files ++ [{ f with content := replaceAllJS search repl f.content }]
      savedNames := acc.savedNames ++ [f.name]
      updatedCount := acc.updatedCount + 1 }
  else
    { acc with files := acc.files ++ [f] }

/-- `_handleBulkApplyTextReplace` over the candidate file list. -/
def bulkApplyTextReplace (search repl : List Char) (ws : List WorkspaceFile) :
    BulkResult :=
  ws.foldl (bulkStep search repl) { files := [], savedNames := [], updatedCount := 0 }

theorem charExpand_singleton (g : Char → Char) :
    ∀ l : List Char, charExpand (fun c => [g c]) l = l.map g := by
  intro l
  induction l with
  | nil => rfl
  | cons c rest ih => simp [charExpand, ih]

/-- Global replacement with a single-character search string expands every
character: each occurrence of `x` becomes `y`, all other characters stay. -/
theorem replaceAllFuel_single (x : Char) (y : List Char) :
    ∀ (fuel : Nat) (hay : List Char), hay.length ≤ fuel →
      replaceAllFuel [x] y fuel hay
        = charExpand (fun c => if c = x then y else [c]) hay := by
  intro fuel
  induction fuel with
  | zero =>
    intro hay hlen
    have : hay = [] := List.length_eq_zero.mp (Nat.le_zero.mp hlen)
    subst this
    rfl
  | succ fuel ih =>
    intro hay hlen
    cases hay with
    | nil => rfl
    | cons c rest =>
      have hrest : rest.length ≤ fuel := by
        simpa [Nat.succ_le_succ_iff] using hlen
      by_cases hcx : c = x
      · subst hcx
        simp [replaceAllFuel, beginsWith, charExpand, ih rest hrest]
      · have hb : beginsWith [x] (c :: rest) = false := by
          simp [beginsWith]
          intro h
          exact absurd h.symm hcx
        simp [replaceAllFuel, hb, charExpand, hcx, ih rest hrest]

theorem replaceAllJS_single (x : Char) (y : List Char) (hay : List Char) :
    replaceAllJS [x] y hay = charExpand (fun c => if c = x then y else [c]) hay := by
  unfold replaceAllJS
  simp [replaceAllFuel_single x y hay.length hay (Nat.le_refl _)]

/-- Characterization of the bulk-replace fold. -/
theorem bulkApplyTextReplace_spec (search repl : List Char) :
    ∀ (ws : List WorkspaceFile) (acc : BulkResult),
      ws.foldl (bulkStep search repl) acc =
        { files := acc.files ++ ws.map (fun f =>
            if containsStr search f.content then
              { f with content := replaceAllJS search repl f.content }
            else f)
          savedNames := acc.savedNames ++
            (ws.filter (fun f => containsStr search f.content)).map WorkspaceFile.name
          updatedCount := acc.updatedCount +
            ws.countP (fun f => containsStr search f.content) } := by
  intro ws
  induction ws with
  | nil => intro acc; simp
  | cons f rest ih =>
    intro acc
    by_cases hf : containsStr search f.content
    · rw [List.foldl_cons, ih]
      simp [bulkStep, hf, List.countP_cons]
      omega
    · rw [List.foldl_cons, ih]
      simp [bulkStep, hf, List.countP_cons]

/-- C8: bulk replacement of `X` by `Y` over a workspace in which exactly 3
files contain `X` saves exactly those 3 files, reports a modified-file count
of 3, replaces EVERY occurrence of `X` (character map) in each containing
file, and leaves every other file unchanged. -/
theorem bulkApplyTextReplace_three_files (ws : List WorkspaceFile)
    (h3 : ws.countP (fun f => containsStr ['X'] f.content) = 3) :
    (bulkApplyTextReplace ['X'] ['Y'] ws).updatedCount = 3 ∧
    (bulkApplyTextReplace ['X'] ['Y'] ws).savedNames =
      (ws.filter (fun f => containsStr ['X'] f.content)).map WorkspaceFile.name ∧
    (bulkApplyTextReplace ['X'] ['Y'] ws).savedNames.length = 3 ∧
    (bulkApplyTextReplace ['X'] ['Y'] ws).files = ws.map (fun f =>
      if containsStr ['X'] f.content then
        { f with content := f.content.map (fun c => if c = 'X' then 'Y' else c) }
      else f) := by
  have hspec := bulkApplyTextReplace_spec ['X'] ['Y'] ws
    { files := [], savedNames := [], updatedCount := 0 }
  have hform : ∀ f : WorkspaceFile,
      replaceAllJS ['X'] ['Y'] f.content
        = f.content.map (fun c => if c = 'X' then 'Y' else c) := by
    intro f
    rw [replaceAllJS_single]
    have h2 := charExpand_singleton (fun c => if c = 'X' then 'Y' else c) f.content
    simp only [apply_ite (fun c => [c])] at h2
    exact h2
  unfold bulkApplyTextReplace
  rw [hspec]
  refine ⟨by simpa using h3, by simp, ?_, ?_⟩
  · simp [List.length_map, ← h3, List.countP_eq_length_filter]
  · simp only [List.nil_append]
    apply List.map_congr_left
    intro f _
    by_cases hf : containsStr ['X'] f.content <;> simp [hf, hform f]

/-- Closed instance of `bulkApplyTextReplace_three_files` on a concrete
four-file workspace, three of whose files contain `X` once. -/
theorem bulkApplyTextReplace_three_files_witness :
    (bulkApplyTextReplace ['X'] ['Y']
      [{ name := "a", content := "aXa".data }, { name := "b", content := "bX".data },
       { name := "c", content := "ccc".data }, { name := "d", content := "Xd".data }]).updatedCount
      = 3 ∧
    (bulkApplyTextReplace ['X'] ['Y']
      [{ name := "a", content := "aXa".data }, { name := "b", content := "bX".data },
       { name := "c", content := "ccc".data }, { name := "d", content := "Xd".data }]).savedNames.length
      = 3 :=
  ⟨(bulkApplyTextReplace_three_files
      [{ name := "a", content := "aXa".data }, { name := "b", content := "bX".data },
       { name := "c", content := "ccc".data }, { name := "d", content := "Xd".data }]
      (by decide)).1,
   (bulkApplyTextReplace_three_files
      [{ name := "a", content := "aXa".data }, { name := "b", content := "bX".data },
       { name := "c", content := "ccc".data }, { name := "d", content := "Xd".data }]
      (by decide)).2.2.1⟩

/-! ## HTML escaping in the insights streaming
(ControlPanel.tsx, `startStreamingInsights` lines 323-342; identical helper
in the historical revision).

`escapeHtml` chains three global replacements, ampersand first:
`.replace(/&/g, '&amp;').replace(/</g, '&lt;').replace(/>/g, '&gt;')`.
The streamed full text is built from the template
`<strong>Problem {num}:</strong>` newline, escaped problem, blank line,
`Solution:` newline, escaped solution, with the parts joined by blank
lines. -/

/-- The chained escaping of `startStreamingInsights` (lines 327-333). -/
def escapeHtml (value : List Char) : List Char :=
  replaceAllJS ['>'] "&gt;".data
    (replaceAllJS ['<'] "&lt;".data
      (replaceAllJS ['&'] "&amp;".data value))

/-- The per-character entity map the claim describes. -/
def escCharEntity (c : Char) : List Char :=
  if c = '&' then "&amp;".data
  else if c = '<' then "&lt;".data
  else if c = '>' then "&gt;".data
  else [c]

theorem charExpand_append (f : Char → List Char) (l₁ l₂ : List Char) :
    charExpand f (l₁ ++ l₂) = charExpand f l₁ ++ charExpand f l₂ := by
  induction l₁ with
  | nil => rfl
  | cons c rest ih => simp [charExpand, ih]

theorem charExpand_comp (g f : Char → List Char) (l : List Char) :
    charExpand g (charExpand f l) = charExpand (fun c => charExpand g (f c)) l := by
  induction l with
  | nil => rfl
  | cons c rest ih => simp [charExpand, charExpand_append, ih]

theorem mem_charExpand {c : Char} {f : Char → List Char} {l : List Char} :
    c ∈ charExpand f l ↔ ∃ a ∈ l, c ∈ f a := by
  induction l with
  | nil => simp [charExpand]
  | cons b rest ih => simp [charExpand, ih]

theorem charExpand_congr (f g : Char → List Char) (h : ∀ c, f c = g c) :
    ∀ l : List Char, charExpand f l = charExpand g l := by
  intro l
  induction l with
  | nil => rfl
  | cons c rest ih => simp [charExpand, h c, ih]

/-- Entity images contain no angle bracket. -/
theorem escCharEntity_no_angle (a : Char) :
    '<' ∉ escCharEntity a ∧ '>' ∉ escCharEntity a := by
  by_cases h1 : a = '&'
  · subst h1; exact ⟨by decide, by decide⟩
  · by_cases h2 : a = '<'
    · subst h2; exact ⟨by decide, by decide⟩
    · by_cases h3 : a = '>'
      · subst h3; exact ⟨by decide, by decide⟩
      · constructor
        · intro hmem
          unfold escCharEntity at hmem
          rw [if_neg h1, if_neg h2, if_neg h3] at hmem
          exact h2 (List.mem_singleton.mp hmem).symm
        · intro hmem
          unfold escCharEntity at hmem
          rw [if_neg h1, if_neg h2, if_neg h3] at hmem
          exact h3 (List.mem_singleton.mp hmem).symm

/-- The chained global replacements equal the one-pass entity expansion. -/
theorem escapeHtml_eq_charExpand (value : List Char) :
    escapeHtml value = charExpand escCharEntity value := by
  unfold escapeHtml
  rw [replaceAllJS_single, replaceAllJS_single, replaceAllJS_single,
    charExpand_comp, charExpand_comp]
  apply charExpand_congr
  intro c
  by_cases h1 : c = '&'
  · subst h1; decide
  · by_cases h2 : c = '<'
    · subst h2; decide
    · by_cases h3 : c = '>'
      · subst h3; decide
      · simp [h1, h2, h3, charExpand, escCharEntity]

theorem escapeHtml_no_angle (value : List Char) :
    '<' ∉ escapeHtml value ∧ '>' ∉ escapeHtml value := by
  rw [escapeHtml_eq_charExpand]
  constructor <;>
  · rw [mem_charExpand]
    rintro ⟨a, _, hmem⟩
    first
      | exact (escCharEntity_no_angle a).1 hmem
      | exact (escCharEntity_no_angle a).2 hmem

theorem digitChar_no_angle (d : Nat) (hd : d < 10) :
    Char.ofNat (48 + d) ≠ '<' ∧ Char.ofNat (48 + d) ≠ '>' := by
  interval_cases d <;> exact ⟨by decide, by decide⟩

theorem natDecimalAux_no_angle :
    ∀ fuel n, '<' ∉ natDecimalAux fuel n ∧ '>' ∉ natDecimalAux fuel n := by
  intro fuel
  induction fuel with
  | zero => intro n; simp [natDecimalAux]
  | succ fuel ih =>
    intro n
    unfold natDecimalAux
    by_cases h : n < 10
    · rw [if_pos h]
      obtain ⟨h1, h2⟩ := digitChar_no_angle n h
      constructor
      · intro hc; exact h1 (List.mem_singleton.mp hc).symm
      · intro hc; exact h2 (List.mem_singleton.mp hc).symm
    · rw [if_neg h]
      obtain ⟨i1, i2⟩ := ih (n / 10)
      obtain ⟨d1, d2⟩ := digitChar_no_angle (n % 10) (Nat.mod_lt _ (by omega))
      constructor
      · intro hc
        rcases List.mem_append.mp hc with hc | hc
        · exact i1 hc
        · exact d1 (List.mem_singleton.mp hc).symm
      · intro hc
        rcases List.mem_append.mp hc with hc | hc
        · exact i2 hc
        · exact d2 (List.mem_singleton.mp hc).symm

/-- Pair each list element with its index (JS `map((x, index) => ...)`). -/
def withIndex (start : Nat) : List Insight → List (Nat × Insight)
  | [] => []
  | x :: xs => (start, x) :: withIndex (start + 1) xs

/-- One part of the streamed insights text (template of line 340):
`<strong>Problem {num}:</strong>` newline, escaped problem, blank line,
`Solution:` newline, escaped solution, where `num = index + 1`. -/
def insightPart (index : Nat) (insight : Insight) : List Char :=
  "<strong>Problem ".data ++ natDecimal (index + 1) ++ ":</strong>\n".data
    ++ escapeHtml insight.problem ++ "\n\nSolution:\n".data
    ++ escapeHtml insight.solution

/-- The full streamed text of `startStreamingInsights` (lines 336-342):
parts joined by blank lines. -/
def buildInsightsHtml (insightsData : List Insight) : List Char :=
  joinSep "\n\n".data ((withIndex 0 insightsData).map fun p => insightPart p.1 p.2)

theorem count_insightPart (index : Nat) (insight : Insight) :
    (insightPart index insight).count '<' = 2 ∧
    (insightPart index insight).count '>' = 2 := by
  have hnat := natDecimalAux_no_angle (index + 1 + 1) (index + 1)
  have hprob := escapeHtml_no_angle insight.problem
  have hsol := escapeHtml_no_angle insight.solution
  constructor <;>
  · unfold insightPart natDecimal
    simp [List.count_append, List.count_eq_zero.mpr hnat.1,
      List.count_eq_zero.mpr hnat.2, List.count_eq_zero.mpr hprob.1,
      List.count_eq_zero.mpr hprob.2, List.count_eq_zero.mpr hsol.1,
      List.count_eq_zero.mpr hsol.2]

theorem count_joinSep_of_not_mem (c : Char) (sep : List Char) (hc : c ∉ sep) :
    ∀ parts : List (List Char),
      (joinSep sep parts).count c = (parts.map fun p => p.count c).sum := by
  intro parts
  induction parts with
  | nil => rfl
  | cons p ps ih =>
    cases ps with
    | nil => simp [joinSep]
    | cons q ps' =>
      simp [joinSep, List.count_append, List.count_eq_zero.mpr hc] at *
      omega

theorem sum_count_insightParts (c : Char)
    (hcount : ∀ index insight, (insightPart index insight).count c = 2) :
    ∀ (insightsData : List Insight) (start : Nat),
      ((withIndex start insightsData).map fun p => (insightPart p.1 p.2).count c).sum
        = 2 * insightsData.length := by
  intro insightsData
  induction insightsData with
  | nil => intro start; rfl
  | cons i rest ih =>
    intro start
    rw [withIndex]
    simp only [List.map_cons, List.sum_cons, List.length_cons]
    rw [ih (start + 1)]
    have hh : (insightPart (start, i).1 (start, i).2).count c = 2 := hcount start i
    rw [hh]
    omega

/-- C10: the chained replacements of `escapeHtml` replace every occurrence
of ampersand, less-than and greater-than by its HTML entity (one-pass entity
expansion), the escaped text contains no angle bracket at all, and therefore
for every insights input the streamed text contains exactly the fixed
wrapper markup: two `<` and two `>` per insight — none originating from the
insight data. -/
theorem escapeHtml_streamed_markup_safe :
    (∀ value : List Char, escapeHtml value = charExpand escCharEntity value) ∧
    (∀ value : List Char, '<' ∉ escapeHtml value ∧ '>' ∉ escapeHtml value) ∧
    (∀ insightsData : List Insight,
      (buildInsightsHtml insightsData).count '<' = 2 * insightsData.length ∧
      (buildInsightsHtml insightsData).count '>' = 2 * insightsData.length) := by
  refine ⟨escapeHtml_eq_charExpand, escapeHtml_no_angle, ?_⟩
  intro insightsData
  have hlt := sum_count_insightParts '<'
    (fun i ins => (count_insightPart i ins).1) insightsData 0
  have hgt := sum_count_insightParts '>'
    (fun i ins => (count_insightPart i ins).2) insightsData 0
  constructor
  · unfold buildInsightsHtml
    rw [count_joinSep_of_not_mem '<' _ (by decide), List.map_map]
    simpa [Function.comp] using hlt
  · unfold buildInsightsHtml
    rw [count_joinSep_of_not_mem '>' _ (by decide), List.map_map]
    simpa [Function.comp] using hgt

/-- Closed instance of `escapeHtml_streamed_markup_safe` on a hostile
insight. -/
theorem escapeHtml_streamed_markup_safe_witness :
    escapeHtml "<b>&".data = charExpand escCharEntity "<b>&".data ∧
    ((buildInsightsHtml [{ problem := "<script>".data, solution := "a&b".data }]).count '<'
        = 2 * 1) :=
  ⟨escapeHtml_streamed_markup_safe.1 "<b>&".data,
   (escapeHtml_streamed_markup_safe.2.2
      [{ problem := "<script>".data, solution := "a&b".data }]).1⟩

end Handit
